import Mathlib

/-!
Shallow embedding of `ldap2json.py`: the `LDAPDirectory` connection
manager (`__init__` / `connect`), the retry loop in `search`, the
`build_filter` filter builder, and the `ldapsearch` request gateway.

Python dictionaries (`kwargs`) are modelled as association lists with
unique keys; the uniqueness hypothesis appears explicitly where a
theorem needs it.  The unbounded `while True` retry loop is modelled
with explicit fuel; exhausting the fuel is reported as a distinguished
outcome carrying the trace so far.  Exceptions are modelled with
`Option` / explicit error outcomes.
-/

namespace Ldap2Json

/-- A search criteria mapping, as passed in `**kwargs`: attribute name to
required value.  A Python `dict` iterated as `kwargs.items()`; keys are
unique in any mapping that actually arises. -/
abbrev Criteria := List (String × String)

/-- Python's `str` comparison on code-point sequences: lexicographic
`≤` on lists of characters. -/
def charListLe : List Char → List Char → Bool
  | [], _ => true
  | _ :: _, [] => false
  | a :: as, b :: bs =>
    if a < b then true
    else if b < a then false
    else charListLe as bs

/-- Python's `a <= b` on strings: code-point lexicographic order. -/
def strLe (a b : String) : Bool := charListLe a.data b.data

/-- Comparison used by `sorted(kwargs.items(), key=lambda x: x[0])`:
items are compared by their key (attribute name) with Python's string
order. -/
def keyLe (a b : String × String) : Prop := strLe a.1 b.1 = true

/-- Strict version of `keyLe`, for uniqueness arguments. -/
def keyLt (a b : String × String) : Prop := ¬ keyLe b a

theorem charListLe_total : ∀ x y : List Char, charListLe x y = true ∨ charListLe y x = true
  | [], _ => Or.inl rfl
  | _ :: _, [] => Or.inr rfl
  | a :: as, b :: bs => by
    rcases lt_trichotomy a b with hab | hab | hab
    · exact Or.inl (by simp [charListLe, hab])
    · subst hab
      rcases charListLe_total as bs with h | h
      · exact Or.inl (by simp [charListLe, h])
      · exact Or.inr (by simp [charListLe, h])
    · exact Or.inr (by simp [charListLe, hab])

theorem charListLe_trans : ∀ x y z : List Char,
    charListLe x y = true → charListLe y z = true → charListLe x z = true
  | [], _, _, _, _ => rfl
  | _ :: _, [], _, h1, _ => by simp [charListLe] at h1
  | _ :: _, _ :: _, [], _, h2 => by simp [charListLe] at h2
  | a :: as, b :: bs, c :: cs, h1, h2 => by
    simp only [charListLe] at h1 h2 ⊢
    rcases lt_trichotomy a b with hab | hab | hab
    · rcases lt_trichotomy b c with hbc | hbc | hbc
      · simp [lt_trans hab hbc]
      · subst hbc; simp [hab]
      · rw [if_neg (lt_asymm hbc), if_pos hbc] at h2; exact absurd h2 Bool.false_ne_true
    · subst hab
      rcases lt_trichotomy a c with hbc | hbc | hbc
      · simp [hbc]
      · subst hbc
        rw [if_neg (lt_irrefl a), if_neg (lt_irrefl a)] at h1 h2 ⊢
        exact charListLe_trans as bs cs h1 h2
      · rw [if_neg (lt_asymm hbc), if_pos hbc] at h2; exact absurd h2 Bool.false_ne_true
    · rw [if_neg (lt_asymm hab), if_pos hab] at h1; exact absurd h1 Bool.false_ne_true

theorem charListLe_antisymm : ∀ x y : List Char,
    charListLe x y = true → charListLe y x = true → x = y
  | [], [], _, _ => rfl
  | [], _ :: _, _, h2 => by simp [charListLe] at h2
  | _ :: _, [], h1, _ => by simp [charListLe] at h1
  | a :: as, b :: bs, h1, h2 => by
    simp only [charListLe] at h1 h2
    rcases lt_trichotomy a b with hab | hab | hab
    · rw [if_neg (lt_asymm hab), if_pos hab] at h2; exact absurd h2 Bool.false_ne_true
    · subst hab
      rw [if_neg (lt_irrefl a), if_neg (lt_irrefl a)] at h1 h2
      rw [charListLe_antisymm as bs h1 h2]
    · rw [if_neg (lt_asymm hab), if_pos hab] at h1; exact absurd h1 Bool.false_ne_true

theorem strLe_total (a b : String) : strLe a b = true ∨ strLe b a = true :=
  charListLe_total a.data b.data

theorem strLe_antisymm {a b : String} (h1 : strLe a b = true) (h2 : strLe b a = true) :
    a = b := by
  cases a; cases b
  exact congrArg String.mk (charListLe_antisymm _ _ h1 h2)

instance : DecidableRel keyLe := fun a b => inferInstanceAs (Decidable (strLe a.1 b.1 = true))

instance : IsTotal (String × String) keyLe := ⟨fun a b => strLe_total a.1 b.1⟩

instance : IsTrans (String × String) keyLe :=
  ⟨fun _ _ _ h h2 => charListLe_trans _ _ _ h h2⟩

instance : IsAntisymm (String × String) keyLt :=
  ⟨fun a b h h2 => absurd ((strLe_total a.1 b.1).resolve_left h2) h⟩

/-- Model of `sorted(kwargs.items(), key=lambda x: x[0])` (line 88): a stable sort
of the key/value pairs by key, ascending lexicographically. -/
def sortByKey (kwargs : Criteria) : Criteria := List.insertionSort keyLe kwargs

/-- Format of one equality term, from line 89: the
key and value are interpolated verbatim, with no escaping. -/
def fmtPair (p : String × String) : String := "(" ++ p.1 ++ "=" ++ p.2 ++ ")"

/-- Model of `LDAPDirectory.build_filter` (lines 84-94).  Sorts the pairs by key,
formats each as `(k=v)`, and joins with `(&...)` when there is more than
one.  On an empty mapping, `filter[0]` raises `IndexError`, modelled as
`none`. -/
def build_filter (kwargs : Criteria) : Option String :=
  let filter := (sortByKey kwargs).map fmtPair
  if 1 < filter.length then
    some ("(&" ++ String.join filter ++ ")")
  else
    filter[0]?

/-- The `LDAPDirectory` connection-manager state.  `itertools.cycle(uris)`
is modelled by the fixed list `uris` plus a cursor counting how many
elements have been consumed; `next(self.uris)` yields
`uris[cursor % uris.length]` and advances the cursor.  `dirUri` is the
endpoint the current handle `self.dir` is bound to (`none` before any
connect). -/
structure LDAPDirectory where
  uris : List String
  cursor : Nat
  dirUri : Option String
  basedn : String
  scope : Nat
  debug : Bool
  maxwait : Nat
deriving DecidableEq

/-- Model of `LDAPDirectory.connect` (lines 47-51): draw the next endpoint from the
cyclic rotation and bind a fresh handle to it. -/
def LDAPDirectory.connect (d : LDAPDirectory) : LDAPDirectory :=
  { d with dirUri := d.uris[d.cursor % d.uris.length]?, cursor := d.cursor + 1 }

/-- Model of `LDAPDirectory.__init__` (lines 31-45): record the configuration and
then call `self.connect()` once. -/
def LDAPDirectory.init (uris : List String) (basedn : String) (scope : Nat)
    (debug : Bool) (maxwait : Nat) : LDAPDirectory :=
  LDAPDirectory.connect
    { uris := uris, cursor := 0, dirUri := none, basedn := basedn,
      scope := scope, debug := debug, maxwait := maxwait }

/-- A directory entry returned by `search_s`: a DN together with an
attribute map. -/
abbrev Entry := String × List (String × List String)

/-- Outcome of one `self.dir.search_s(...)` call: a result set, the
`ldap.SERVER_DOWN` exception, or any other exception (protocol error,
malformed filter, ...). -/
inductive SearchOutcome where
  | ok (res : List Entry)
  | serverDown
  | otherError (e : String)
deriving DecidableEq

/-- Result of the retry loop, together with the observable trace: the
intervals slept (in order) and the number of `connect()` calls made
inside the loop.  `fuelOut` reports fuel exhaustion of the model of the
unbounded `while True` loop. -/
inductive SearchResult where
  | ok (res : List Entry) (sleeps : List Nat) (connects : Nat)
  | err (e : String) (sleeps : List Nat) (connects : Nat)
  | fuelOut (sleeps : List Nat) (connects : Nat)
deriving DecidableEq

/-- The intervals slept during the search, in order. -/
def SearchResult.sleeps : SearchResult → List Nat
  | .ok _ s _ => s
  | .err _ s _ => s
  | .fuelOut s _ => s

/-- The number of `connect()` calls made during the retry loop. -/
def SearchResult.connects : SearchResult → Nat
  | .ok _ _ c => c
  | .err _ _ c => c
  | .fuelOut _ c => c

/-- The `while True` retry loop of `search` (lines 66-82).  `conn n` is the
outcome of `search_s` on the n-th attempt (1-indexed); `tries` is the
attempt counter before the `tries += 1` at the top of the iteration;
`sleeps` and `connects` accumulate the trace.  On `SERVER_DOWN` the loop
sleeps `max(1, min(maxwait, (tries-1)*2))` seconds, reconnects, and
retries; on success it returns; any other exception propagates. -/
def searchLoop (conn : Nat → SearchOutcome) (maxwait : Nat) :
    Nat → Nat → List Nat → Nat → SearchResult
  | 0, _, sleeps, connects => .fuelOut sleeps connects
  | fuel + 1, tries, sleeps, connects =>
    let t := tries + 1
    match conn t with
    | .ok r => .ok r sleeps connects
    | .otherError e => .err e sleeps connects
    | .serverDown =>
      let interval := max 1 (min maxwait ((t - 1) * 2))
      searchLoop conn maxwait fuel t (sleeps ++ [interval]) (connects + 1)

/-- The filter actually built by `search` (lines 62-65): empty criteria
are replaced by the match-all criterion before `build_filter` runs. -/
def search_filter (kwargs : Criteria) : Option String :=
  let kwargs := if kwargs.isEmpty then [("objectclass", "*")] else kwargs
  build_filter kwargs

/-- Model of `LDAPDirectory.search` (lines 53-82).  Here `conn f n` is the outcome of
`search_s(basedn, scope, filterstr=f)` on the n-th attempt.  The built
filter string is passed to every attempt.  `none` models the unreachable
case of the filter build failing after the match-all substitution. -/
def search (conn : String → Nat → SearchOutcome) (maxwait : Nat)
    (kwargs : Criteria) (fuel : Nat) : Option SearchResult :=
  match search_filter kwargs with
  | none => none
  | some f => some (searchLoop (conn f) maxwait fuel 0 [] 0)

/-- The `/ldap` route handler `ldapsearch` (lines 110-156), from the point
where the directory search result `res` is available: an empty result
raises `HTTPError(404)`; otherwise the result is serialized by `dumps`
(modelling `simplejson.dumps`) and, when a JSONP `callback` was supplied,
wrapped in a function call. -/
def ldapsearch (dumps : List Entry → String) (callback : Option String)
    (res : List Entry) : Except Nat String :=
  if res.isEmpty then
    Except.error 404
  else
    let text := dumps res
    match callback with
    | some cb => Except.ok (cb ++ "(" ++ text ++ ")")
    | none => Except.ok text

/-! ### Properties of the filter builder -/

theorem sortByKey_perm (l : Criteria) : (sortByKey l).Perm l := List.perm_insertionSort keyLe l

theorem sortByKey_sorted (l : Criteria) : List.Sorted keyLe (sortByKey l) :=
  List.sorted_insertionSort keyLe l

theorem keyLt_of_keyLe_of_ne {a b : String × String} (h : keyLe a b) (hne : a.1 ≠ b.1) :
    keyLt a b :=
  fun h2 => hne (strLe_antisymm h h2)

theorem sorted_keyLt_of_nodup {l : Criteria} (hs : List.Sorted keyLe l)
    (hn : (l.map Prod.fst).Nodup) : List.Sorted keyLt l := by
  have hn2 : List.Pairwise (fun a b : String × String => a.1 ≠ b.1) l :=
    List.pairwise_map.mp hn
  exact (hs.and hn2).imp fun h => keyLt_of_keyLe_of_ne h.1 h.2

theorem sortByKey_sorted_keyLt {l : Criteria} (hn : (l.map Prod.fst).Nodup) :
    List.Sorted keyLt (sortByKey l) :=
  sorted_keyLt_of_nodup (sortByKey_sorted l)
    (((sortByKey_perm l).map Prod.fst).nodup_iff.mpr hn)

theorem sortByKey_eq_of_perm {l₁ l₂ : Criteria} (hp : l₁.Perm l₂)
    (hn : (l₁.map Prod.fst).Nodup) : sortByKey l₁ = sortByKey l₂ :=
  List.eq_of_perm_of_sorted
    ((sortByKey_perm l₁).trans (hp.trans (sortByKey_perm l₂).symm))
    (sortByKey_sorted_keyLt hn)
    (sortByKey_sorted_keyLt ((hp.map Prod.fst).nodup_iff.mp hn))

theorem build_filter_eq_none_iff (kwargs : Criteria) :
    build_filter kwargs = none ↔ kwargs = [] := by
  have hlen : ((sortByKey kwargs).map fmtPair).length = kwargs.length := by
    rw [List.length_map, (sortByKey_perm kwargs).length_eq]
  constructor
  · intro hc
    rw [← List.length_eq_zero, ← hlen]
    by_contra hlen0
    unfold build_filter at hc
    by_cases h : 1 < ((sortByKey kwargs).map fmtPair).length
    · rw [if_pos h] at hc; exact absurd hc (by simp)
    · rw [if_neg h, List.getElem?_eq_none_iff] at hc; omega
  · intro hc; subst hc; rfl

theorem search_filter_isSome (kwargs : Criteria) : ∃ f, search_filter kwargs = some f := by
  unfold search_filter
  by_cases h : kwargs.isEmpty
  · rw [if_pos h]; exact ⟨_, rfl⟩
  · rw [if_neg h]
    rcases hb : build_filter kwargs with _ | f
    · rw [build_filter_eq_none_iff] at hb; subst hb; simp at h
    · exact ⟨f, rfl⟩

/-- Claim C4: for every pair of criteria mappings containing the same
key/value pairs supplied in different insertion orders (i.e. permutations
of each other, with the unique keys a mapping has), `build_filter`
produces an identical filter string. -/
theorem spec_c4 (l₁ l₂ : Criteria) (hp : l₁.Perm l₂) (hn : (l₁.map Prod.fst).Nodup) :
    build_filter l₁ = build_filter l₂ := by
  unfold build_filter
  rw [sortByKey_eq_of_perm hp hn]

/-- Witness for C4 at a concrete two-entry mapping supplied in both
orders. -/
theorem spec_c4_witness :
    build_filter [("cn", "alice"), ("mail", "a@example.com")] =
      build_filter [("mail", "a@example.com"), ("cn", "alice")] :=
  spec_c4 _ _ (List.Perm.swap _ _ _) (by decide)

/-- Claim C5: a one-entry mapping yields `"(attr=value)"`; a mapping with
more than one entry yields `"(&(attr1=value1)(attr2=value2)...)"` where
the pairs appear ordered by attribute name ascending in Python's string
order (strictly ascending when the keys are unique); each pair is
formatted verbatim with no escaping or validation. -/
theorem spec_c5 :
    (∀ a v : String, build_filter [(a, v)] = some ("(" ++ a ++ "=" ++ v ++ ")")) ∧
    (∀ kwargs : Criteria, 1 < kwargs.length →
      build_filter kwargs =
        some ("(&" ++ String.join ((sortByKey kwargs).map fmtPair) ++ ")") ∧
      (sortByKey kwargs).Perm kwargs ∧ List.Sorted keyLe (sortByKey kwargs) ∧
      ((kwargs.map Prod.fst).Nodup → List.Sorted keyLt (sortByKey kwargs)) ∧
      ∀ p ∈ sortByKey kwargs, fmtPair p = "(" ++ p.1 ++ "=" ++ p.2 ++ ")") := by
  constructor
  · intro a v; rfl
  · intro kwargs h
    have hlen : 1 < ((sortByKey kwargs).map fmtPair).length := by
      rw [List.length_map, (sortByKey_perm kwargs).length_eq]; exact h
    refine ⟨?_, sortByKey_perm kwargs, sortByKey_sorted kwargs,
      fun hn => sortByKey_sorted_keyLt hn, fun p _ => rfl⟩
    unfold build_filter
    rw [if_pos hlen]

/-- Witness for C5 at a one-entry and a two-entry mapping. -/
theorem spec_c5_witness :
    build_filter [("cn", "alice")] = some ("(" ++ "cn" ++ "=" ++ "alice" ++ ")") ∧
    build_filter [("mail", "a"), ("cn", "b")] =
      some ("(&" ++ String.join ((sortByKey [("mail", "a"), ("cn", "b")]).map fmtPair) ++ ")") :=
  ⟨spec_c5.1 "cn" "alice", (spec_c5.2 [("mail", "a"), ("cn", "b")] (by decide)).1⟩

/-- Claim C6: `build_filter` fails (the `IndexError` on `filter[0]`,
modelled as `none`) exactly on the empty criteria mapping; every
non-empty mapping, including the default match-all criterion, is
accepted and produces a filter string. -/
theorem spec_c6 :
    (∀ kwargs : Criteria, build_filter kwargs = none ↔ kwargs = []) ∧
    build_filter [("objectclass", "*")] = some "(objectclass=*)" :=
  ⟨build_filter_eq_none_iff, rfl⟩

/-- Witness for C6: the empty mapping fails, a non-empty one does not. -/
theorem spec_c6_witness :
    build_filter ([] : Criteria) = none ∧ build_filter [("cn", "x")] ≠ none :=
  ⟨(spec_c6.1 []).mpr rfl, fun h => absurd ((spec_c6.1 _).mp h) (by decide)⟩

/-- Claim C8: `search` on empty criteria substitutes the match-all
criterion before building the filter: the built filter is
`"(objectclass=*)"` and the whole search behaves identically to a search
for the match-all criterion. -/
theorem spec_c8 :
    search_filter [] = some "(objectclass=*)" ∧
    ∀ (conn : String → Nat → SearchOutcome) (maxwait fuel : Nat),
      search conn maxwait [] fuel = search conn maxwait [("objectclass", "*")] fuel :=
  ⟨rfl, fun _ _ _ => rfl⟩

/-! ### Properties of the retry loop -/

theorem searchLoop_zero (conn : Nat → SearchOutcome) (maxwait tries : Nat)
    (sleeps : List Nat) (connects : Nat) :
    searchLoop conn maxwait 0 tries sleeps connects = .fuelOut sleeps connects := rfl

theorem searchLoop_succ_ok (conn : Nat → SearchOutcome) (maxwait fuel tries : Nat)
    (sleeps : List Nat) (connects : Nat) (r : List Entry)
    (h : conn (tries + 1) = .ok r) :
    searchLoop conn maxwait (fuel + 1) tries sleeps connects = .ok r sleeps connects := by
  simp [searchLoop, h]

theorem searchLoop_succ_err (conn : Nat → SearchOutcome) (maxwait fuel tries : Nat)
    (sleeps : List Nat) (connects : Nat) (e : String)
    (h : conn (tries + 1) = .otherError e) :
    searchLoop conn maxwait (fuel + 1) tries sleeps connects = .err e sleeps connects := by
  simp [searchLoop, h]

theorem searchLoop_succ_down (conn : Nat → SearchOutcome) (maxwait fuel tries : Nat)
    (sleeps : List Nat) (connects : Nat)
    (h : conn (tries + 1) = .serverDown) :
    searchLoop conn maxwait (fuel + 1) tries sleeps connects =
      searchLoop conn maxwait fuel (tries + 1)
        (sleeps ++ [max 1 (min maxwait ((tries + 1 - 1) * 2))]) (connects + 1) := by
  simp [searchLoop, h]

theorem searchLoop_sleeps_getD (conn : Nat → SearchOutcome) (maxwait : Nat) :
    ∀ (fuel tries : Nat) (sleeps : List Nat) (connects : Nat),
      sleeps.length = tries →
      (∀ k, k < sleeps.length → sleeps.getD k 0 = max 1 (min maxwait (k * 2))) →
      ∀ k, k < (searchLoop conn maxwait fuel tries sleeps connects).sleeps.length →
        (searchLoop conn maxwait fuel tries sleeps connects).sleeps.getD k 0 =
          max 1 (min maxwait (k * 2))
  | 0, tries, sleeps, connects, _, hk => by
    simpa [searchLoop_zero, SearchResult.sleeps] using hk
  | fuel + 1, tries, sleeps, connects, hlen, hk => by
    cases hconn : conn (tries + 1) with
    | ok r =>
      rw [searchLoop_succ_ok conn maxwait fuel tries sleeps connects r hconn]
      exact hk
    | otherError e =>
      rw [searchLoop_succ_err conn maxwait fuel tries sleeps connects e hconn]
      exact hk
    | serverDown =>
      rw [searchLoop_succ_down conn maxwait fuel tries sleeps connects hconn]
      refine searchLoop_sleeps_getD conn maxwait fuel (tries + 1) _ (connects + 1) ?_ ?_
      · simp [hlen]
      · intro k hk2
        rw [List.length_append, List.length_singleton] at hk2
        rcases Nat.lt_or_ge k sleeps.length with h | h
        · rw [List.getD_append _ _ _ _ h]
          exact hk k h
        · have hke : k = sleeps.length := by omega
          subst hke
          rw [List.getD_append_right _ _ _ _ h, Nat.sub_self]
          simp [hlen]

theorem searchLoop_err_from_other (conn : Nat → SearchOutcome) (maxwait : Nat) :
    ∀ (fuel tries : Nat) (sleeps : List Nat) (connects : Nat) (e : String)
      (s : List Nat) (c : Nat),
      searchLoop conn maxwait fuel tries sleeps connects = .err e s c →
      ∃ n, conn n = .otherError e
  | 0, _, _, _, _, _, _, h => by rw [searchLoop_zero] at h; exact absurd h (by simp)
  | fuel + 1, tries, sleeps, connects, e, s, c, h => by
    cases hconn : conn (tries + 1) with
    | ok r =>
      rw [searchLoop_succ_ok conn maxwait fuel tries sleeps connects r hconn] at h
      exact absurd h (by simp)
    | otherError e2 =>
      rw [searchLoop_succ_err conn maxwait fuel tries sleeps connects e2 hconn] at h
      obtain ⟨rfl, -, -⟩ := SearchResult.err.inj h
      exact ⟨tries + 1, hconn⟩
    | serverDown =>
      rw [searchLoop_succ_down conn maxwait fuel tries sleeps connects hconn] at h
      exact searchLoop_err_from_other conn maxwait fuel (tries + 1) _ (connects + 1) e s c h

/-- Claim C1: every interval slept inside `search` before reconnecting
equals `max(1, min(maxwait, t*2))`, where `t` is the attempt count before
incrementing for that failure (the k-th sleep, 0-indexed, has `t = k`);
for `maxwait = 5` and a sustained sequence of connection losses the
intervals are `1, 2, 4, 5, 5, 5`, and the formula never falls below 1
nor exceeds `maxwait` whenever `maxwait ≥ 1`. -/
theorem spec_c1 :
    (∀ (conn : String → Nat → SearchOutcome) (maxwait : Nat) (kwargs : Criteria)
       (fuel : Nat) (r : SearchResult), search conn maxwait kwargs fuel = some r →
       ∀ k, k < r.sleeps.length → r.sleeps.getD k 0 = max 1 (min maxwait (k * 2))) ∧
    search (fun _ _ => SearchOutcome.serverDown) 5 [("a", "b")] 6 =
      some (SearchResult.fuelOut [1, 2, 4, 5, 5, 5] 6) ∧
    (∀ maxwait k : Nat, 1 ≤ max 1 (min maxwait (k * 2)) ∧
       (1 ≤ maxwait → max 1 (min maxwait (k * 2)) ≤ maxwait)) := by
  refine ⟨?_, rfl, fun maxwait k => ⟨le_max_left 1 _, fun h => max_le h (min_le_left _ _)⟩⟩
  intro conn maxwait kwargs fuel r h
  obtain ⟨f, hsf⟩ := search_filter_isSome kwargs
  rw [search, hsf] at h
  obtain rfl : searchLoop (conn f) maxwait fuel 0 [] 0 = r := Option.some.inj h
  exact searchLoop_sleeps_getD (conn f) maxwait fuel 0 [] 0 rfl (by intro k hk; simp at hk)

/-- Witness for C1: the third sleep (index 2) of a sustained-failure
search with `maxwait = 5` equals the formula's value 4. -/
theorem spec_c1_witness :
    (SearchResult.fuelOut [1, 2, 4, 5, 5, 5] 6).sleeps.getD 2 0 = max 1 (min 5 (2 * 2)) :=
  spec_c1.1 (fun _ _ => SearchOutcome.serverDown) 5 [("a", "b")] 6
    (SearchResult.fuelOut [1, 2, 4, 5, 5, 5] 6) (by rfl) 2 (by decide)

/-- Claim C3: if the connection-level search is down on the first two
attempts and succeeds on the third, `search` returns the third attempt's
result set, having slept intervals `[1, 2]` (each bounded by `maxwait`)
and called `connect()` exactly twice. -/
theorem spec_c3 (conn : String → Nat → SearchOutcome) (maxwait : Nat) (kwargs : Criteria)
    (fuel : Nat) (res : List Entry)
    (h1 : ∀ f, conn f 1 = .serverDown) (h2 : ∀ f, conn f 2 = .serverDown)
    (h3 : ∀ f, conn f 3 = .ok res) (hmw : 2 ≤ maxwait) (hfuel : 3 ≤ fuel) :
    search conn maxwait kwargs fuel = some (.ok res [1, 2] 2) := by
  obtain ⟨d, rfl⟩ : ∃ d, fuel = (d + 2) + 1 := ⟨fuel - 3, by omega⟩
  obtain ⟨f, hsf⟩ := search_filter_isSome kwargs
  simp only [search, hsf]
  rw [searchLoop_succ_down (conn f) maxwait (d + 2) 0 [] 0 (h1 f)]
  rw [searchLoop_succ_down (conn f) maxwait (d + 1) 1 _ 1 (h2 f)]
  rw [searchLoop_succ_ok (conn f) maxwait d 2 _ 2 res (h3 f)]
  simp [Nat.min_eq_right hmw]

/-- Witness for C3: a concrete connection that is down twice then
succeeds, with the default `maxwait = 120`. -/
theorem spec_c3_witness :
    search (fun _ n => if n ≤ 2 then SearchOutcome.serverDown
        else SearchOutcome.ok [("dn", [])]) 120 [("cn", "alice")] 10 =
      some (SearchResult.ok [("dn", [])] [1, 2] 2) :=
  spec_c3 _ 120 [("cn", "alice")] 10 [("dn", [])]
    (fun _ => rfl) (fun _ => rfl) (fun _ => rfl) (by decide) (by decide)

theorem searchLoop_err_at (conn : Nat → SearchOutcome) (maxwait : Nat) (e : String) :
    ∀ (n fuel tries : Nat) (sleeps : List Nat) (connects : Nat),
      1 ≤ n → n ≤ fuel →
      (∀ j, 1 ≤ j → j < n → conn (tries + j) = .serverDown) →
      conn (tries + n) = .otherError e →
      searchLoop conn maxwait fuel tries sleeps connects =
        .err e (sleeps ++ (List.range (n - 1)).map
            (fun k => max 1 (min maxwait ((tries + k) * 2)))) (connects + (n - 1))
  | 0, _, _, _, _, h1, _, _, _ => absurd h1 (by omega)
  | 1, fuel, tries, sleeps, connects, _, hf, _, hn => by
    obtain ⟨d, rfl⟩ : ∃ d, fuel = d + 1 := ⟨fuel - 1, by omega⟩
    rw [searchLoop_succ_err conn maxwait d tries sleeps connects e hn]
    simp
  | n + 2, fuel, tries, sleeps, connects, _, hf, hdown, hn => by
    obtain ⟨d, rfl⟩ : ∃ d, fuel = d + 1 := ⟨fuel - 1, by omega⟩
    rw [searchLoop_succ_down conn maxwait d tries sleeps connects
      (hdown 1 (by omega) (by omega))]
    rw [searchLoop_err_at conn maxwait e (n + 1) d (tries + 1) _ (connects + 1)
      (by omega) (by omega)
      (fun j hj1 hj2 => by
        rw [show tries + 1 + j = tries + (j + 1) from by omega]
        exact hdown (j + 1) (by omega) (by omega))
      (by rw [show tries + 1 + (n + 1) = tries + (n + 2) from by omega]; exact hn)]
    congr 1
    · rw [List.append_assoc]
      congr 1
      rw [show n + 2 - 1 = n + 1 from rfl, show n + 1 - 1 = n from rfl]
      rw [List.range_succ_eq_map, List.map_cons, List.map_map, List.singleton_append]
      congr 1
      refine List.map_congr_left fun k _ => ?_
      simp only [Function.comp_apply]
      rw [show tries + 1 + k = tries + Nat.succ k from by omega]
    · omega

/-- Claim C7: a non-connection-loss failure on any attempt propagates at
that point: if the first `n - 1` attempts hit connection losses and the
n-th raises any other error, `search` surfaces that error carrying
exactly the `n - 1` backoff sleeps and `n - 1` `connect()` calls of the
preceding connection losses — zero additional connection attempts and
zero additional sleeps (`n = 1` gives immediate propagation with no
sleep and no reconnect); moreover any error ever surfaced by `search`
stems from a non-connection-loss outcome of some attempt: the
connection-loss condition itself is never surfaced. -/
theorem spec_c7 :
    (∀ (conn : String → Nat → SearchOutcome) (maxwait : Nat) (kwargs : Criteria)
       (fuel n : Nat) (e : String), 1 ≤ n → n ≤ fuel →
       (∀ f j, 1 ≤ j → j < n → conn f j = .serverDown) →
       (∀ f, conn f n = .otherError e) →
       search conn maxwait kwargs fuel =
         some (.err e ((List.range (n - 1)).map (fun k => max 1 (min maxwait (k * 2))))
           (n - 1))) ∧
    (∀ (conn : String → Nat → SearchOutcome) (maxwait : Nat) (kwargs : Criteria)
       (fuel : Nat) (e : String) (s : List Nat) (c : Nat),
       search conn maxwait kwargs fuel = some (.err e s c) →
       ∃ f n, conn f n = .otherError e) := by
  constructor
  · intro conn maxwait kwargs fuel n e hn hf hdown herr
    obtain ⟨f, hsf⟩ := search_filter_isSome kwargs
    simp only [search, hsf]
    rw [searchLoop_err_at (conn f) maxwait e n fuel 0 [] 0 hn hf
      (fun j hj1 hj2 => by rw [Nat.zero_add]; exact hdown f j hj1 hj2)
      (by rw [Nat.zero_add]; exact herr f)]
    simp
  · intro conn maxwait kwargs fuel e s c h
    obtain ⟨f, hsf⟩ := search_filter_isSome kwargs
    rw [search, hsf] at h
    obtain ⟨n, hn⟩ :=
      searchLoop_err_from_other (conn f) maxwait fuel 0 [] 0 e s c (Option.some.inj h)
    exact ⟨f, n, hn⟩

/-- Witness for C7: a connection that is down on attempts 1 and 2 and
raises a protocol error on attempt 3; the search surfaces the protocol
error right there, with exactly the two backoff sleeps `[1, 2]` and two
reconnects of the preceding connection losses and nothing more. -/
theorem spec_c7_witness :
    search (fun _ j => if j ≤ 2 then SearchOutcome.serverDown
        else SearchOutcome.otherError "ProtocolError") 120 [] 5 =
      some (SearchResult.err "ProtocolError" [1, 2] 2) :=
  (spec_c7.1 (fun _ j => if j ≤ 2 then SearchOutcome.serverDown
      else SearchOutcome.otherError "ProtocolError") 120 [] 5 3 "ProtocolError"
    (by decide) (by decide)
    (fun f j hj1 hj2 => by
      have hj : j ≤ 2 := by omega
      simp [hj])
    (fun f => rfl)).trans (by rfl)

/-! ### Properties of the connection manager and the gateway -/

theorem connect_iterate (d : LDAPDirectory) :
    ∀ k, (LDAPDirectory.connect^[k] d).uris = d.uris ∧
      (LDAPDirectory.connect^[k] d).cursor = d.cursor + k
  | 0 => ⟨rfl, rfl⟩
  | k + 1 => by
    rw [Function.iterate_succ_apply']
    obtain ⟨h1, h2⟩ := connect_iterate d k
    refine ⟨by rw [LDAPDirectory.connect]; exact h1, ?_⟩
    rw [LDAPDirectory.connect]
    simp only [h2]
    omega

/-- Claim C2 counterexample: constructed with rotation `["E1", "E2"]`,
the first explicit `connect()` call leaves the current handle bound to
E2, not E1 as the claim states, because construction itself already
performed one `connect()`. -/
theorem spec_c2_counterexample :
    (LDAPDirectory.connect (LDAPDirectory.init ["E1", "E2"] "" 0 false 120)).dirUri
        = some "E2" ∧ some "E2" ≠ some ("E1" : String) :=
  ⟨rfl, by decide⟩

/-- Claim C2 as amended: counting the constructor's internal `connect()`
as the first draw from the rotation, successive `connect()` calls bind
endpoints cyclically in fixed construction order — after `k` explicit
calls the handle is bound to endpoint `k mod n` of the rotation — and
the rotation list itself never changes (no endpoint is ever removed). -/
theorem spec_c2_amended (uris : List String) (basedn : String) (scope : Nat)
    (debug : Bool) (maxwait : Nat) (k : Nat) :
    (LDAPDirectory.connect^[k] (LDAPDirectory.init uris basedn scope debug maxwait)).uris
        = uris ∧
    (LDAPDirectory.connect^[k] (LDAPDirectory.init uris basedn scope debug maxwait)).dirUri
        = uris[k % uris.length]? := by
  cases k with
  | zero => exact ⟨rfl, rfl⟩
  | succ k =>
    rw [Function.iterate_succ_apply']
    obtain ⟨h1, h2⟩ :=
      connect_iterate (LDAPDirectory.init uris basedn scope debug maxwait) k
    have hu : (LDAPDirectory.init uris basedn scope debug maxwait).uris = uris := rfl
    have hc : (LDAPDirectory.init uris basedn scope debug maxwait).cursor = 1 := rfl
    rw [hu] at h1
    rw [hc] at h2
    constructor
    · rw [LDAPDirectory.connect]; exact h1
    · rw [LDAPDirectory.connect]
      simp only [h1, h2]
      rw [Nat.add_comm 1 k]

/-- Claim C10: constructing the connection manager performs one
`connect()`: immediately after construction the handle is bound to the
first endpoint and the rotation cursor has advanced past it, so the
first explicit `connect()` binds the second endpoint, not the first. -/
theorem spec_c10 (uris : List String) (basedn : String) (scope : Nat) (debug : Bool)
    (maxwait : Nat) (h : 2 ≤ uris.length) :
    (LDAPDirectory.init uris basedn scope debug maxwait).dirUri = uris[0]? ∧
    (LDAPDirectory.init uris basedn scope debug maxwait).cursor = 1 ∧
    (∃ u, (LDAPDirectory.init uris basedn scope debug maxwait).dirUri = some u) ∧
    (LDAPDirectory.connect (LDAPDirectory.init uris basedn scope debug maxwait)).dirUri
        = uris[1]? := by
  have h0 : (0 : Nat) % uris.length = 0 := Nat.zero_mod _
  have hinit : (LDAPDirectory.init uris basedn scope debug maxwait).dirUri
      = uris[0 % uris.length]? := rfl
  refine ⟨by rw [hinit, h0], rfl, ?_, ?_⟩
  · refine ⟨uris.get ⟨0, by omega⟩, ?_⟩
    rw [hinit, h0]
    rw [List.getElem?_eq_getElem (show 0 < uris.length by omega)]
    rfl
  · have : (LDAPDirectory.connect
        (LDAPDirectory.init uris basedn scope debug maxwait)).dirUri
        = uris[1 % uris.length]? := rfl
    rw [this, Nat.mod_eq_of_lt (by omega)]

/-- Witness for C10 at the concrete rotation `["E1", "E2"]`. -/
theorem spec_c10_witness :
    (LDAPDirectory.init ["E1", "E2"] "" 0 false 120).dirUri = ["E1", "E2"][0]? ∧
    (LDAPDirectory.init ["E1", "E2"] "" 0 false 120).cursor = 1 ∧
    (∃ u, (LDAPDirectory.init ["E1", "E2"] "" 0 false 120).dirUri = some u) ∧
    (LDAPDirectory.connect (LDAPDirectory.init ["E1", "E2"] "" 0 false 120)).dirUri
        = ["E1", "E2"][1]? :=
  spec_c10 ["E1", "E2"] "" 0 false 120 (by decide)

/-- Claim C9: when the directory search result is empty the gateway
signals HTTP 404 instead of returning a document; when it is non-empty
the full result set is serialized and returned. -/
theorem spec_c9 (dumps : List Entry → String) (res : List Entry) :
    (res = [] → ∀ callback, ldapsearch dumps callback res = Except.error 404) ∧
    (res ≠ [] → ldapsearch dumps none res = Except.ok (dumps res)) := by
  constructor
  · rintro rfl callback; rfl
  · intro h
    rw [ldapsearch, if_neg (by simpa using h)]

/-- Witness for C9 with a concrete serializer, an empty and a singleton
result set. -/
theorem spec_c9_witness :
    ldapsearch (fun _ => "json") none [] = Except.error 404 ∧
    ldapsearch (fun _ => "json") none [("dn", [])] = Except.ok "json" :=
  ⟨(spec_c9 (fun _ => "json") []).1 rfl none,
   (spec_c9 (fun _ => "json") [("dn", [])]).2 (by decide)⟩

end Ldap2Json
